import Mathlib

/-!
Verification development for the cashweb-rs relay core: BIP32-style key
derivation (`cashweb-bitcoin/src/bip32.rs`), stamp verification
(`cashweb-relay/src/stamp.rs`), the message parse / authenticate / open
pipeline (`cashweb-relay/src/lib.rs`), the bitcoin transaction codec
(`cashweb-bitcoin/src/transaction`), and the auth wrapper parser
(`cashweb-auth-wrapper/src/lib.rs`).

Modelling conventions:
* Bytes are `Nat` values (implicitly < 256) and byte strings are `List Nat`.
* The secp256k1 group is cyclic of prime order `secpOrder`; we model scalars
  and curve points by their residue mod `secpOrder` (a point is identified
  with its discrete logarithm with respect to the generator, `0` standing
  for the point at infinity).  All group operations used by the source
  (`from_secret_key`, `combine`, `add_exp_assign`, `mul_assign`,
  `add_assign`) translate to modular arithmetic on `Nat` with an explicit
  `% secpOrder`.
* External primitives that the repository treats as trusted collaborators
  (SHA-256, RIPEMD-160, HMAC, AES-128-CBC, point / signature byte parsing,
  prost payload encoding) are fields of a `CryptoPrims` record that every
  embedded function takes as an argument; concrete instances are supplied
  for witnesses and counterexamples.
* A Rust `.unwrap()` that can actually fail is modelled as an explicit
  panic outcome: `Option.none` for functions returning plain values, or the
  `PResult.panic` constructor for functions returning `Result`.
-/

/-- Big-endian interpretation of a byte string as a natural number. -/
def bytesToNatBE (l : List Nat) : Nat :=
  l.foldl (fun acc b => acc * 256 + b) 0

/-- Little-endian interpretation of a byte string as a natural number. -/
def bytesToNatLE (l : List Nat) : Nat :=
  l.foldr (fun b acc => acc * 256 + b) 0

/-- Big-endian encoding of a natural number on `k` bytes (truncating above). -/
def natToBE : Nat → Nat → List Nat
  | 0, _ => []
  | k + 1, n => natToBE k (n / 256) ++ [n % 256]

/-- Big-endian 4-byte encoding of a `u32`, as produced by `index.to_be_bytes()`. -/
def be32 (n : Nat) : List Nat := natToBE 4 n

/-- Order of the secp256k1 group (a prime); all scalars and discrete
logarithms live in `[0, secpOrder)`. -/
def secpOrder : Nat :=
  115792089237316195423570985008687907852837564279074904382605163141518161494337

/-- A secp256k1 scalar in the discrete-log model: a `Nat` below `secpOrder`.
A valid `SecretKey` is additionally nonzero. -/
abbrev Scalar := Nat

/-- A secp256k1 point in the discrete-log model: its discrete logarithm,
with `0` standing for the point at infinity.  A valid `PublicKey` is
nonzero. -/
abbrev Point := Nat

/-- Embedding of `PublicKey::from_secret_key`: the point `k·G`, which in the
discrete-log model is `k` itself. -/
def pubFromSecret (k : Scalar) : Point := k

/-- Embedding of `SecretKey::from_slice`: succeeds exactly on 32-byte
strings whose big-endian value is nonzero and below the group order. -/
def privFromBytes (b : List Nat) : Option Scalar :=
  if b.length = 32 ∧ 0 < bytesToNatBE b ∧ bytesToNatBE b < secpOrder then
    some (bytesToNatBE b)
  else
    none

/-- Errors of the external `secp256k1` library (the variants the embedded
code can produce). -/
inductive SecpError
  | InvalidPublicKey
  | InvalidSecretKey
  | InvalidSignature
  | InvalidTweak
  deriving DecidableEq, Repr

/-- Error of the external `block_modes` crate (an opaque unit struct). -/
structure BlockModeError where
  deriving DecidableEq, Repr

/-- Error of the external `prost` decoder (treated as opaque). -/
structure ProstDecodeError where
  deriving DecidableEq, Repr

/-- The decrypted, deserialized application-level payload.  The prost
`Payload` message is generated code outside `src/`; the relay core never
inspects it, so it is treated as an opaque value. -/
abbrev Payload := List Nat

/-- Record of the external cryptographic and codec primitives the
repository uses through trusted collaborator crates (`ring`, `ripemd160`,
`aes`/`block_modes`, `secp256k1` byte parsing, `prost`).  Embedded
functions are parameterised by this record; theorems quantify over it or
instantiate it with concrete computable functions.

The in-place CBC decrypt of `block_modes` (`BlockMode::decrypt`) has two
observables, modelled by two fields: `aesCbcDecrypt` is its `Result` — an
error on a bad buffer length or bad PKCS7 padding, otherwise the unpadded
plaintext slice (also the value `decrypt_vec` returns as a `Vec`) — and
`aesCbcDecryptBuffer` is the content of the caller's buffer after the call:
the block-decrypted bytes with the PKCS7 padding still present, since
unpadding only shortens the returned slice, never the buffer itself. -/
structure CryptoPrims where
  sha256 : List Nat → List Nat
  ripemd160 : List Nat → List Nat
  hmac256 : List Nat → List Nat → List Nat
  hmac512 : List Nat → List Nat → List Nat
  serPoint : Point → List Nat
  pointFromBytes : List Nat → Except SecpError Point
  sigFromCompact : List Nat → Except SecpError (List Nat)
  aesCbcEncrypt : List Nat → List Nat → List Nat → List Nat
  aesCbcDecrypt : List Nat → List Nat → List Nat → Except BlockModeError (List Nat)
  aesCbcDecryptBuffer : List Nat → List Nat → List Nat → List Nat
  payloadDecode : List Nat → Except ProstDecodeError Payload
  payloadEncode : Payload → List Nat

/-! ## BIP32 key derivation (`cashweb-bitcoin/src/bip32.rs`) -/

/-- Error associated with child number construction (`IndexError`). -/
structure IndexError where
  index : Nat
  deriving DecidableEq, Repr

/-- Embedding of `ChildNumber` (bip32.rs lines 21-26). -/
inductive ChildNumber
  | Normal (i : Nat)
  | Hardened (i : Nat)
  deriving DecidableEq, Repr

/-- Embedding of `ChildNumber::from_normal_index` (bip32.rs lines 40-46). -/
def ChildNumber.fromNormalIndex (index : Nat) : Except IndexError ChildNumber :=
  if index &&& (1 <<< 31) = 0 then
    .ok (.Normal index)
  else
    .error ⟨index⟩

/-- Embedding of `DeriveError` (bip32.rs lines 30-35). -/
inductive DeriveError
  | HardenedDeriveError
  | InvalidTweak (e : SecpError)
  deriving DecidableEq, Repr

/-- Outcome of an embedded function whose source can return `Err`, return
`Ok`, or panic on an unwrapped failure. -/
inductive PResult (ε α : Type)
  | panic
  | error (e : ε)
  | ok (a : α)
  deriving DecidableEq, Repr

/-- Monadic sequencing on `PResult`, propagating panics and errors. -/
def PResult.bind {ε α β : Type} : PResult ε α → (α → PResult ε β) → PResult ε β
  | .panic, _ => .panic
  | .error e, _ => .error e
  | .ok a, f => f a

/-- Embedding of `ExtendedPublicKey` (bip32.rs lines 73-76): a public key
point together with a 32-byte chain code. -/
structure ExtendedPublicKey where
  public_key : Point
  chain_code : List Nat
  deriving DecidableEq, Repr

/-- Embedding of `ExtendedPrivateKey` (bip32.rs lines 162-165). -/
structure ExtendedPrivateKey where
  private_key : Scalar
  chain_code : List Nat
  deriving DecidableEq, Repr

/-- Embedding of `ExtendedPublicKey::derive_public_child` (bip32.rs lines
131-155).  Hardened numbers are rejected; otherwise
`I = HMAC-SHA512(chain_code, serialize(pub) || be32 index)`, the first 32
bytes are parsed as a scalar (the source unwraps, hence `panic` on
failure), the last 32 bytes are the new chain code, and the new point is
the tweak-add `pub + I_L·G`, failing with `InvalidTweak` when the result is
the point at infinity. -/
def ExtendedPublicKey.derivePublicChild (C : CryptoPrims) (x : ExtendedPublicKey)
    (child_number : ChildNumber) : PResult DeriveError ExtendedPublicKey :=
  match child_number with
  | .Hardened _ => .error .HardenedDeriveError
  | .Normal index =>
    let data := C.serPoint x.public_key ++ be32 index
    let hmac_result := C.hmac512 x.chain_code data
    match privFromBytes (hmac_result.take 32) with
    | none => .panic
    | some t =>
      if (hmac_result.drop 32).length ≠ 32 then .panic
      else if (x.public_key + t) % secpOrder = 0 then .error (.InvalidTweak .InvalidTweak)
      else .ok ⟨(x.public_key + t) % secpOrder, hmac_result.drop 32⟩

/-- Embedding of `ExtendedPublicKey::derive_public_path` (bip32.rs lines
110-128): the first child is derived, then the loop threads the rest. -/
def ExtendedPublicKey.derivePublicPath (C : CryptoPrims) (x : ExtendedPublicKey) :
    List ChildNumber → PResult DeriveError ExtendedPublicKey
  | [] => .ok x
  | n :: rest =>
    match x.derivePublicChild C n with
    | .panic => .panic
    | .error e => .error e
    | .ok y => y.derivePublicPath C rest

/-- Embedding of `ExtendedPrivateKey::derive_private_child` (bip32.rs lines
216-248).  The HMAC input is the serialized public key for normal numbers
and `0x00 || private_key || be32 index` for hardened ones; the new scalar
is `(I_L + parent) mod n`.  The source unwraps both the scalar parse and
the scalar addition, so those failures are modelled as `none` (panic). -/
def ExtendedPrivateKey.derivePrivateChild (C : CryptoPrims) (x : ExtendedPrivateKey)
    (child_number : ChildNumber) : Option ExtendedPrivateKey :=
  let data :=
    match child_number with
    | .Normal index => C.serPoint (pubFromSecret x.private_key) ++ be32 index
    | .Hardened index => 0 :: (natToBE 32 x.private_key ++ be32 index)
  let hmac_result := C.hmac512 x.chain_code data
  match privFromBytes (hmac_result.take 32) with
  | none => none
  | some t =>
    if (t + x.private_key) % secpOrder = 0 then none
    else if (hmac_result.drop 32).length ≠ 32 then none
    else some ⟨(t + x.private_key) % secpOrder, hmac_result.drop 32⟩

/-- Embedding of `ExtendedPrivateKey::derive_private_path` (bip32.rs lines
194-213). -/
def ExtendedPrivateKey.derivePrivatePath (C : CryptoPrims) (x : ExtendedPrivateKey) :
    List ChildNumber → Option ExtendedPrivateKey
  | [] => some x
  | n :: rest =>
    match x.derivePrivateChild C n with
    | none => none
    | some y => y.derivePrivatePath C rest

/-! ## Bitcoin transaction codec (`cashweb-bitcoin/src/var_int.rs`,
`transaction/{outpoint,input,output,script,mod}.rs`).  Each decoder
consumes bytes from the front of the buffer and returns the decoded value
together with the remaining bytes. -/

/-- Embedding of `var_int::DecodeError`. -/
inductive VarIntDecodeError
  | TooShort
  | NonMinimal
  deriving DecidableEq, Repr

/-- Embedding of `VarInt::decode` (var_int.rs lines 69-110): one tag byte
selects a 1-, 2-, 4- or 8-byte little-endian extension, rejecting
non-minimal encodings. -/
def varIntDecode : List Nat → Except VarIntDecodeError (Nat × List Nat)
  | [] => .error .TooShort
  | first_byte :: rest =>
    if first_byte = 0xff then
      if rest.length < 8 then .error .TooShort
      else
        let x := bytesToNatLE (rest.take 8)
        if x < 0x100000000 then .error .NonMinimal else .ok (x, rest.drop 8)
    else if first_byte = 0xfe then
      if rest.length < 4 then .error .TooShort
      else
        let x := bytesToNatLE (rest.take 4)
        if x < 0x10000 then .error .NonMinimal else .ok (x, rest.drop 4)
    else if first_byte = 0xfd then
      if rest.length < 2 then .error .TooShort
      else
        let x := bytesToNatLE (rest.take 2)
        if x < 0xfd then .error .NonMinimal else .ok (x, rest.drop 2)
    else .ok (first_byte, rest)

/-- Embedding of `Script` (script/mod.rs line 9): a byte vector. -/
structure Script where
  bytes : List Nat
  deriving DecidableEq, Repr

/-- Embedding of `Script::is_p2pkh` (script/mod.rs lines 56-63): a 25-byte
script with `OP_DUP OP_HASH160 OP_PUSHBYTES_20` at positions 0..2 and
`OP_EQUALVERIFY OP_CHECKSIG` at positions 23..24. -/
def Script.isP2PKH (s : Script) : Bool :=
  s.bytes.length = 25
    && s.bytes.getD 0 0 = 0x76
    && s.bytes.getD 1 0 = 0xa9
    && s.bytes.getD 2 0 = 0x14
    && s.bytes.getD 23 0 = 0x88
    && s.bytes.getD 24 0 = 0xac

/-- Embedding of `Outpoint` (outpoint.rs): a 32-byte transaction id and a
`u32` output index. -/
structure Outpoint where
  tx_id : List Nat
  vout : Nat
  deriving DecidableEq, Repr

/-- Embedding of `outpoint::DecodeError` (a unit struct). -/
structure OutpointDecodeError where
  deriving DecidableEq, Repr

/-- Embedding of `Outpoint::decode` (outpoint.rs): requires 36 remaining
bytes; `vout` is read with big-endian `get_u32`. -/
def outpointDecode (b : List Nat) : Except OutpointDecodeError (Outpoint × List Nat) :=
  if b.length < 32 + 4 then .error ⟨⟩
  else .ok (⟨b.take 32, bytesToNatBE ((b.drop 32).take 4)⟩, b.drop 36)

/-- Embedding of `input::DecodeError`. -/
inductive InputDecodeError
  | Outpoint (e : OutpointDecodeError)
  | ScriptLen (e : VarIntDecodeError)
  | ScriptTooShort
  | SequenceTooShort
  deriving DecidableEq, Repr

/-- Embedding of `Input` (input.rs lines 36-40). -/
structure Input where
  outpoint : Outpoint
  script : Script
  sequence : Nat
  deriving DecidableEq, Repr

/-- Embedding of `Input::decode` (input.rs lines 63-90). -/
def inputDecode (b : List Nat) : Except InputDecodeError (Input × List Nat) :=
  match outpointDecode b with
  | .error e => .error (.Outpoint e)
  | .ok (outpoint, b1) =>
    match varIntDecode b1 with
    | .error e => .error (.ScriptLen e)
    | .ok (script_len, b2) =>
      if b2.length < script_len then .error .ScriptTooShort
      else
        let raw_script := b2.take script_len
        let b3 := b2.drop script_len
        if b3.length < 4 then .error .SequenceTooShort
        else .ok (⟨outpoint, ⟨raw_script⟩, bytesToNatBE (b3.take 4)⟩, b3.drop 4)

/-- Embedding of `output::DecodeError`. -/
inductive OutputDecodeError
  | ValueTooShort
  | ScriptLen (e : VarIntDecodeError)
  | ScriptTooShort
  deriving DecidableEq, Repr

/-- Embedding of `Output` (output.rs lines 39-42): a `u64` value and a
script. -/
structure Output where
  value : Nat
  script : Script
  deriving DecidableEq, Repr

/-- Embedding of `Output::decode` (output.rs lines 62-79): 8-byte
big-endian value, then a varint-prefixed script. -/
def outputDecode (b : List Nat) : Except OutputDecodeError (Output × List Nat) :=
  if b.length < 8 then .error .ValueTooShort
  else
    let value := bytesToNatBE (b.take 8)
    let b1 := b.drop 8
    match varIntDecode b1 with
    | .error e => .error (.ScriptLen e)
    | .ok (script_len, b2) =>
      if b2.length < script_len then .error .ScriptTooShort
      else .ok (⟨value, ⟨b2.take script_len⟩⟩, b2.drop script_len)

/-- Embedding of `transaction::DecodeError` (transaction/mod.rs lines
67-74). -/
inductive TxDecodeError
  | VersionTooShort
  | InputCount (e : VarIntDecodeError)
  | Input (e : InputDecodeError)
  | OutputCount (e : VarIntDecodeError)
  | Output (e : OutputDecodeError)
  | LockTimeTooShort
  deriving DecidableEq, Repr

/-- Embedding of `Transaction` (transaction/mod.rs lines 19-24). -/
structure Transaction where
  version : Nat
  inputs : List Input
  outputs : List Output
  lock_time : Nat
  deriving DecidableEq, Repr

/-- Decodes `n` consecutive inputs, as the `(0..n_inputs).map(...)` loop in
`Transaction::decode` does. -/
def decodeInputs : Nat → List Nat → Except InputDecodeError (List Input × List Nat)
  | 0, b => .ok ([], b)
  | n + 1, b =>
    match inputDecode b with
    | .error e => .error e
    | .ok (i, rest) =>
      match decodeInputs n rest with
      | .error e => .error e
      | .ok (is, rest2) => .ok (i :: is, rest2)

/-- Decodes `n` consecutive outputs, as the `(0..n_outputs).map(...)` loop
in `Transaction::decode` does. -/
def decodeOutputs : Nat → List Nat → Except OutputDecodeError (List Output × List Nat)
  | 0, b => .ok ([], b)
  | n + 1, b =>
    match outputDecode b with
    | .error e => .error e
    | .ok (o, rest) =>
      match decodeOutputs n rest with
      | .error e => .error e
      | .ok (os, rest2) => .ok (o :: os, rest2)

/-- Embedding of `Transaction::decode` (transaction/mod.rs lines 92-128):
4-byte version, varint-counted inputs, varint-counted outputs, 4-byte lock
time; trailing bytes are permitted and returned. -/
def txDecode (b : List Nat) : Except TxDecodeError (Transaction × List Nat) :=
  if b.length < 4 then .error .VersionTooShort
  else
    let version := bytesToNatBE (b.take 4)
    let b1 := b.drop 4
    match varIntDecode b1 with
    | .error e => .error (.InputCount e)
    | .ok (n_inputs, b2) =>
      match decodeInputs n_inputs b2 with
      | .error e => .error (.Input e)
      | .ok (inputs, b3) =>
        match varIntDecode b3 with
        | .error e => .error (.OutputCount e)
        | .ok (n_outputs, b4) =>
          match decodeOutputs n_outputs b4 with
          | .error e => .error (.Output e)
          | .ok (outputs, b5) =>
            if b5.length < 4 then .error .LockTimeTooShort
            else .ok (⟨version, inputs, outputs, bytesToNatBE (b5.take 4)⟩, b5.drop 4)

/-! ## Stamps (`cashweb-relay/src/stamp.rs` and the prost models) -/

/-- Modelled from the spec: the prost-generated `StampType` enum is not
under `src/` (it is generated from `relay/messaging.proto` at build time);
the spec describes the discriminant as `None` or a funded type, and the
source only distinguishes `StampType::None` from the rest. -/
inductive StampType
  | None
  | Funded
  deriving DecidableEq, Repr

/-- Modelled from the spec: prost's generated `StampType::from_i32`,
mapping the wire discriminant to the enum and `none` for unknown values. -/
def StampType.fromI32 (i : Int) : Option StampType :=
  if i = 0 then some .None
  else if i = 1 then some .Funded
  else none

/-- Embedding of the prost `StampOutpoints` message as used by the source:
raw transaction bytes plus claimed output indices. -/
structure StampOutpoints where
  stamp_tx : List Nat
  vouts : List Nat
  deriving DecidableEq, Repr

/-- Embedding of the prost `Stamp` message as used by the source: a raw
`i32` discriminant and the outpoint list. -/
structure Stamp where
  stamp_type : Int
  stamp_outpoints : List StampOutpoints
  deriving DecidableEq, Repr

/-- Embedding of `StampError` (stamp.rs lines 24-41). -/
inductive StampError
  | Decode (e : TxDecodeError)
  | MissingOutput
  | NotP2PKH
  | UnexpectedAddress (actual expected : List Nat)
  | DegenerateCombination
  | ChildNumberOverflow
  | UnsupportedStampType
  | NoneType
  deriving DecidableEq, Repr

/-- Embedding of the per-vout body of `verify_stamp`'s inner loop
(stamp.rs lines 123-151): fetch the output (`MissingOutput`), require the
P2PKH pattern (`NotP2PKH`), extract the embedded hash from bytes 3..23,
build the vout child number (`ChildNumberOverflow`), derive the per-output
child key (the source unwraps, hence panic on any failure), and compare
`RIPEMD160(SHA256(serialize(child)))` against the embedded hash
(`UnexpectedAddress actual expected`). -/
def checkVout (C : CryptoPrims) (tx_child : ExtendedPublicKey) (tx : Transaction)
    (vout : Nat) : PResult StampError Unit :=
  match tx.outputs[vout]? with
  | none => .error .MissingOutput
  | some output =>
    if ¬ output.script.isP2PKH then .error .NotP2PKH
    else
      let pubkey_hash := (output.script.bytes.drop 3).take 20
      match ChildNumber.fromNormalIndex vout with
      | .error _ => .error .ChildNumberOverflow
      | .ok child_number =>
        match tx_child.derivePublicChild C child_number with
        | .panic => .panic
        | .error _ => .panic
        | .ok child_key =>
          let raw_child_key := C.serPoint child_key.public_key
          let hash160_digest := C.ripemd160 (C.sha256 raw_child_key)
          if hash160_digest ≠ pubkey_hash then
            .error (.UnexpectedAddress hash160_digest pubkey_hash)
          else .ok ()

/-- Runs `checkVout` over a `vouts` list, stopping at the first failure, as
the `for vout in &outpoint.vouts` loop does. -/
def checkVouts (C : CryptoPrims) (tx_child : ExtendedPublicKey) (tx : Transaction) :
    List Nat → PResult StampError Unit
  | [] => .ok ()
  | v :: rest =>
    match checkVout C tx_child tx v with
    | .panic => .panic
    | .error e => .error e
    | .ok _ => checkVouts C tx_child tx rest

/-- Embedding of `verify_stamp`'s outer loop (stamp.rs lines 112-154):
decode each stamp transaction, derive the per-transaction child at normal
index `tx_num` (truncated to `u32` by the `as u32` cast; the derivation
result is unwrapped, hence panic on failure), check every claimed vout, and
collect the decoded transactions in order. -/
def processOutpoints (C : CryptoPrims) (intermediate_child : ExtendedPublicKey) :
    Nat → List StampOutpoints → PResult StampError (List Transaction)
  | _, [] => .ok []
  | tx_num, outpoint :: rest =>
    match txDecode outpoint.stamp_tx with
    | .error e => .error (.Decode e)
    | .ok (tx, _) =>
      match ChildNumber.fromNormalIndex (tx_num % 2 ^ 32) with
      | .error _ => .error .ChildNumberOverflow
      | .ok child_number =>
        match intermediate_child.derivePublicChild C child_number with
        | .panic => .panic
        | .error _ => .panic
        | .ok tx_child =>
          match checkVouts C tx_child tx outpoint.vouts with
          | .panic => .panic
          | .error e => .error e
          | .ok _ =>
            match processOutpoints C intermediate_child (tx_num + 1) rest with
            | .panic => .panic
            | .error e => .error e
            | .ok txs => .ok (tx :: txs)

/-- Embedding of the pre-loop part of `verify_stamp` (stamp.rs lines
90-108): interpret the payload digest as a private scalar (the source
unwraps `PrivateKey::from_slice`, hence panic on an invalid scalar),
combine its public key with the destination key (`DegenerateCombination` on
the point at infinity), build the master key with the digest as chain code,
and derive the intermediate child at the fixed path `[44, 145]` (the
source unwraps, hence panic on failure). -/
def stampSetup (C : CryptoPrims) (payload_digest : List Nat)
    (destination_public_key : Point) : PResult StampError ExtendedPublicKey :=
  match privFromBytes payload_digest with
  | none => .panic
  | some payload_secret_key =>
    let payload_public_key := pubFromSecret payload_secret_key
    if (destination_public_key + payload_public_key) % secpOrder = 0 then
      .error .DegenerateCombination
    else
      let master_pk : ExtendedPublicKey :=
        ⟨(destination_public_key + payload_public_key) % secpOrder, payload_digest⟩
      match master_pk.derivePublicPath C [.Normal 44, .Normal 145] with
      | .ok intermediate_child => .ok intermediate_child
      | .error _ => .panic
      | .panic => .panic

/-- Embedding of the free function `verify_stamp` (stamp.rs lines 80-157). -/
def verifyStamp (C : CryptoPrims) (stamp_outpoints : List StampOutpoints)
    (payload_digest : List Nat) (destination_public_key : Point)
    (stamp_type : StampType) : PResult StampError (List Transaction) :=
  if stamp_type = .None then .error .NoneType
  else
    match stampSetup C payload_digest destination_public_key with
    | .panic => .panic
    | .error e => .error e
    | .ok intermediate_child => processOutpoints C intermediate_child 0 stamp_outpoints

/-- Embedding of the method `Stamp::verify_stamp` (stamp.rs lines 64-76):
converts the raw discriminant with `from_i32` (`UnsupportedStampType` on
failure) and delegates to the free function.  Named `verifyStampM` because
inside the `Stamp` namespace the bare name would shadow the free
function. -/
def Stamp.verifyStampM (C : CryptoPrims) (s : Stamp) (payload_digest : List Nat)
    (destination_public_key : Point) : PResult StampError (List Transaction) :=
  match StampType.fromI32 s.stamp_type with
  | none => .error .UnsupportedStampType
  | some t => verifyStamp C s.stamp_outpoints payload_digest destination_public_key t

/-! ## Message parse and crypto pipeline (`cashweb-relay/src/lib.rs`) -/

/-- Modelled from the spec: the prost-generated `EncryptionScheme` enum is
not under `src/`; the source only needs `from_i32` to succeed or fail, so a
single supported scheme is modelled, with discriminant `1`. -/
inductive EncryptionScheme
  | Aes
  deriving DecidableEq, Repr

/-- Modelled from the spec: prost's generated `EncryptionScheme::from_i32`. -/
def EncryptionScheme.fromI32 (i : Int) : Option EncryptionScheme :=
  if i = 1 then some .Aes else none

/-- Embedding of the prost `Message` wire entity as used by the source
(field list read off `Message::parse` and `ParsedMessage::into_message`,
lib.rs lines 76-207). -/
structure Message where
  source_public_key : List Nat
  destination_public_key : List Nat
  received_time : Int
  payload_digest : List Nat
  stamp : Option Stamp
  scheme : Int
  salt : List Nat
  payload_hmac : List Nat
  payload_size : Nat
  payload : List Nat
  deriving DecidableEq, Repr

/-- Embedding of `DigestError` (lib.rs lines 117-127). -/
inductive DigestError
  | DigestAndPayloadMissing
  | FraudulentDigest
  | UnexpectedLengthDigest
  deriving DecidableEq, Repr

/-- Embedding of `Message::digest` (lib.rs lines 132-167): case analysis on
the length of the `payload_digest` field. -/
def Message.digest (C : CryptoPrims) (m : Message) : Except DigestError (List Nat) :=
  match m.payload_digest.length with
  | 0 =>
    if m.payload.isEmpty then .error .DigestAndPayloadMissing
    else .ok (C.sha256 m.payload)
  | 32 =>
    if ¬ m.payload.isEmpty then
      if C.sha256 m.payload ≠ m.payload_digest then .error .FraudulentDigest
      else .ok (C.sha256 m.payload)
    else .ok m.payload_digest
  | _ => .error .UnexpectedLengthDigest

/-- Embedding of `ParseError` (lib.rs lines 94-113). -/
inductive ParseError
  | Digest (e : DigestError)
  | SourcePublicKey (e : SecpError)
  | DestinationPublicKey (e : SecpError)
  | MissingStamp
  | UnsupportedStampType
  | UnexpectedLengthPayloadHmac
  deriving DecidableEq, Repr

/-- Embedding of `ParsedMessage` (lib.rs lines 51-72). -/
structure ParsedMessage where
  source_public_key : Point
  destination_public_key : Point
  received_time : Int
  payload_digest : List Nat
  stamp : Stamp
  scheme : EncryptionScheme
  salt : List Nat
  payload_hmac : List Nat
  payload_size : Nat
  payload : List Nat
  deriving DecidableEq, Repr

/-- Embedding of `Message::parse` (lib.rs lines 173-207): decode both
public keys, resolve the payload digest, require the stamp, resolve the
scheme, and coerce `payload_hmac` to 32 bytes. -/
def Message.parse (C : CryptoPrims) (m : Message) : Except ParseError ParsedMessage :=
  match C.pointFromBytes m.source_public_key with
  | .error e => .error (.SourcePublicKey e)
  | .ok source_public_key =>
    match C.pointFromBytes m.destination_public_key with
    | .error e => .error (.DestinationPublicKey e)
    | .ok destination_public_key =>
      match m.digest C with
      | .error e => .error (.Digest e)
      | .ok payload_digest =>
        match m.stamp with
        | none => .error .MissingStamp
        | some stamp =>
          match EncryptionScheme.fromI32 m.scheme with
          | none => .error .UnsupportedStampType
          | some scheme =>
            if m.payload_hmac.length ≠ 32 then .error .UnexpectedLengthPayloadHmac
            else
              .ok ⟨source_public_key, destination_public_key, m.received_time,
                payload_digest, stamp, scheme, m.salt, m.payload_hmac,
                m.payload_size, m.payload⟩

/-- Embedding of `create_merged_key` (lib.rs lines 212-220): scalar
multiplication of the source public key by the recipient private key bytes;
`mul_assign` fails with `InvalidTweak` on an invalid scalar. -/
def createMergedKey (source_public_key : Point) (private_key : List Nat) :
    Except SecpError Point :=
  match privFromBytes private_key with
  | none => .error .InvalidTweak
  | some k => .ok (source_public_key * k % secpOrder)

/-- Embedding of `create_shared_key` (lib.rs lines 224-237):
`HMAC-SHA256(key = serialize(merged_key), data = salt)`. -/
def createSharedKey (C : CryptoPrims) (source_public_key : Point)
    (private_key salt : List Nat) : Except SecpError (List Nat) :=
  match createMergedKey source_public_key private_key with
  | .error e => .error e
  | .ok merged_key => .ok (C.hmac256 (C.serPoint merged_key) salt)

/-- Embedding of `InvalidHmac` (lib.rs line 242). -/
structure InvalidHmac where
  deriving DecidableEq, Repr

/-- Embedding of the free function `authenticate` (lib.rs lines 246-260):
recompute `HMAC-SHA256(shared_key, payload_digest)` and compare against the
given `payload_hmac` argument. -/
def authenticate (C : CryptoPrims) (shared_key payload_digest payload_hmac : List Nat) :
    Except InvalidHmac Unit :=
  if C.hmac256 shared_key payload_digest ≠ payload_hmac then .error ⟨⟩
  else .ok ()

/-- Embedding of the method `ParsedMessage::authenticate` (lib.rs lines
316-320).  Note the source passes `self.salt` — not `self.payload_hmac` —
as the `payload_hmac` argument of the free function.  Named
`authenticateM` because inside the `ParsedMessage` namespace the bare name
would shadow the free function. -/
def ParsedMessage.authenticateM (C : CryptoPrims) (m : ParsedMessage)
    (shared_key : List Nat) : Except InvalidHmac Unit :=
  Except.map (fun _ => ()) (authenticate C shared_key m.payload_digest m.salt)

/-- Embedding of the method `ParsedMessage::create_shared_key` (lib.rs
lines 306-312), named with an `M` suffix for the same namespace reason. -/
def ParsedMessage.createSharedKeyM (C : CryptoPrims) (m : ParsedMessage)
    (private_key salt : List Nat) : Except SecpError (List Nat) :=
  createSharedKey C m.source_public_key private_key salt

/-- Embedding of the method `ParsedMessage::verify_stamp` (lib.rs lines
324-327). -/
def ParsedMessage.verifyStampM (C : CryptoPrims) (m : ParsedMessage) :
    PResult StampError (List Transaction) :=
  m.stamp.verifyStampM C m.payload_digest m.destination_public_key

/-- Embedding of `Opened` (lib.rs lines 267-272). -/
structure Opened where
  txs : List Transaction
  payload : Payload
  deriving DecidableEq, Repr

/-- Embedding of `OpenError` (lib.rs lines 279-295). -/
inductive OpenError
  | Stamp (e : StampError)
  | SharedKey (e : SecpError)
  | Authentication
  | Payload (e : ProstDecodeError)
  | Decrypt (e : BlockModeError)
  deriving DecidableEq, Repr

/-- Embedding of `ParsedMessage::open` (lib.rs lines 364-391): verify the
stamp, derive the shared key, authenticate, CBC-decrypt, decode.  Two
peculiarities of the source are preserved: the result of `decrypt_vec` is
discarded (only its error is propagated), and `Payload::decode` is then
applied to `raw_payload` — the still-encrypted `self.payload` buffer.  The
`GenericArray::from_slice` calls panic unless the key and IV halves are
exactly 16 bytes.  Named `openMessage` because `open` is a reserved word in
Lean. -/
def ParsedMessage.openMessage (C : CryptoPrims) (m : ParsedMessage)
    (private_key : List Nat) : PResult OpenError Opened :=
  match m.verifyStampM C with
  | .panic => .panic
  | .error e => .error (.Stamp e)
  | .ok txs =>
    match m.createSharedKeyM C private_key m.salt with
    | .error e => .error (.SharedKey e)
    | .ok shared_key =>
      match m.authenticateM C shared_key with
      | .error _ => .error .Authentication
      | .ok _ =>
        let key := shared_key.take 16
        let iv := shared_key.drop 16
        if key.length ≠ 16 ∨ iv.length ≠ 16 then .panic
        else
          match C.aesCbcDecrypt key iv m.payload with
          | .error e => .error (.Decrypt e)
          | .ok _ =>
            match C.payloadDecode m.payload with
            | .error e => .error (.Payload e)
            | .ok payload => .ok ⟨txs, payload⟩

/-- Embedding of `ParsedMessage::open_in_place` (lib.rs lines 333-360):
identical to `open` up to decryption.  `cipher.decrypt(&mut raw_payload)`
mutates `self.payload` into the block-decrypted bytes and returns the
unpadded plaintext slice, but the source keeps only the error
(`.map_err(OpenError::Decrypt)?`) and then runs `Payload::decode` on the
full mutated buffer — which still ends in the PKCS7 padding bytes, since
in-place decryption cannot shorten the vector. -/
def ParsedMessage.openInPlace (C : CryptoPrims) (m : ParsedMessage)
    (private_key : List Nat) : PResult OpenError Opened :=
  match m.verifyStampM C with
  | .panic => .panic
  | .error e => .error (.Stamp e)
  | .ok txs =>
    match m.createSharedKeyM C private_key m.salt with
    | .error e => .error (.SharedKey e)
    | .ok shared_key =>
      match m.authenticateM C shared_key with
      | .error _ => .error .Authentication
      | .ok _ =>
        let key := shared_key.take 16
        let iv := shared_key.drop 16
        if key.length ≠ 16 ∨ iv.length ≠ 16 then .panic
        else
          match C.aesCbcDecrypt key iv m.payload with
          | .error e => .error (.Decrypt e)
          | .ok _ =>
            match C.payloadDecode (C.aesCbcDecryptBuffer key iv m.payload) with
            | .error e => .error (.Payload e)
            | .ok payload => .ok ⟨txs, payload⟩

/-- Embedding of `encrypt_payload` (lib.rs lines 421-427): split the shared
key into cipher key and IV and CBC-encrypt; `GenericArray::from_slice`
panics unless both halves are exactly 16 bytes. -/
def encryptPayload (C : CryptoPrims) (shared_key plaintext : List Nat) :
    Option (List Nat) :=
  let key := shared_key.take 16
  let iv := shared_key.drop 16
  if key.length ≠ 16 ∨ iv.length ≠ 16 then none
  else some (C.aesCbcEncrypt key iv plaintext)

/-! ## Auth wrapper (`cashweb-auth-wrapper/src/lib.rs`) -/

/-- Modelled from the spec: the prost-generated `SignatureScheme` enum from
`wrapper.proto` is not under `src/`; the source compares against
`SignatureScheme::Schnorr` and otherwise treats the scheme as ECDSA. -/
inductive SignatureScheme
  | Schnorr
  | Ecdsa
  deriving DecidableEq, Repr

/-- Modelled from the spec: prost's generated `SignatureScheme::from_i32`. -/
def SignatureScheme.fromI32 (i : Int) : Option SignatureScheme :=
  if i = 0 then some .Schnorr
  else if i = 1 then some .Ecdsa
  else none

/-- Embedding of the prost `AuthWrapper` message as used by
`AuthWrapper::parse`. -/
structure AuthWrapper where
  public_key : List Nat
  signature : List Nat
  scheme : Int
  payload_digest : List Nat
  payload : List Nat
  deriving DecidableEq, Repr

/-- Embedding of the auth wrapper `ParseError` (auth-wrapper lib.rs lines
39-52). -/
inductive AwParseError
  | PublicKey (e : SecpError)
  | Signature (e : SecpError)
  | UnsupportedScheme
  | FraudulentDigest
  | DigestAndPayloadMissing
  | UnexpectedLengthDigest
  deriving DecidableEq, Repr

/-- Embedding of `ParsedAuthWrapper` (auth-wrapper lib.rs lines 24-35). -/
structure ParsedAuthWrapper where
  public_key : Point
  signature : List Nat
  scheme : SignatureScheme
  payload : List Nat
  payload_digest : List Nat
  deriving DecidableEq, Repr

/-- Embedding of the digest-resolution block of `AuthWrapper::parse`
(auth-wrapper lib.rs lines 85-104).  Unlike `Message::digest`, the 32-byte
arm unconditionally recomputes `SHA256(payload)` and requires equality,
with no special case for an empty payload. -/
def awResolveDigest (C : CryptoPrims) (payload_digest payload : List Nat) :
    Except AwParseError (List Nat) :=
  match payload_digest.length with
  | 0 =>
    if payload.isEmpty then .error .DigestAndPayloadMissing
    else .ok (C.sha256 payload)
  | 32 =>
    if C.sha256 payload ≠ payload_digest then .error .FraudulentDigest
    else .ok payload_digest
  | _ => .error .UnexpectedLengthDigest

/-- Embedding of `AuthWrapper::parse` (auth-wrapper lib.rs lines 74-113):
parse the public key, resolve the scheme, parse the signature, then
resolve the digest with `awResolveDigest`. -/
def AuthWrapper.parse (C : CryptoPrims) (w : AuthWrapper) :
    Except AwParseError ParsedAuthWrapper :=
  match C.pointFromBytes w.public_key with
  | .error e => .error (.PublicKey e)
  | .ok public_key =>
    match SignatureScheme.fromI32 w.scheme with
    | none => .error .UnsupportedScheme
    | some scheme =>
      match C.sigFromCompact w.signature with
      | .error e => .error (.Signature e)
      | .ok signature =>
        match awResolveDigest C w.payload_digest w.payload with
        | .error e => .error e
        | .ok payload_digest =>
          .ok ⟨public_key, signature, scheme, w.payload, payload_digest⟩

/-! ## Concrete primitive instances for witnesses and counterexamples -/

/-- Decidable equality for `Except`, needed so concrete evaluations can be
settled by `decide`. -/
instance {e a : Type} [DecidableEq e] [DecidableEq a] : DecidableEq (Except e a) := fun x y =>
  match x, y with
  | .error u, .error v =>
    if h : u = v then isTrue (h ▸ rfl) else isFalse fun hc => h (Except.error.inj hc)
  | .ok u, .ok v =>
    if h : u = v then isTrue (h ▸ rfl) else isFalse fun hc => h (Except.ok.inj hc)
  | .error _, .ok _ => isFalse fun hc => Except.noConfusion hc
  | .ok _, .error _ => isFalse fun hc => Except.noConfusion hc

/-- Concrete, fully computable instance of the external primitives.  The
hash functions are constants with the right output shapes: `sha256` always
returns the 32-byte big-endian encoding of `1` (a valid nonzero scalar),
`hmac512` always returns a 64-byte block whose scalar half is `1` and whose
chain-code half is zero, and `hmac256` always returns thirty-two `7`
bytes.  The cipher prepends or strips one `0` byte, and payload
encoding/decoding is the identity. -/
def C0 : CryptoPrims where
  sha256 := fun _ => List.replicate 31 0 ++ [1]
  ripemd160 := fun _ => List.replicate 20 0
  hmac256 := fun _ _ => List.replicate 32 7
  hmac512 := fun _ _ => (List.replicate 31 0 ++ [1]) ++ List.replicate 32 0
  serPoint := fun p => 2 :: natToBE 32 p
  pointFromBytes := fun b => .ok (bytesToNatBE b % secpOrder)
  sigFromCompact := fun b => .ok b
  aesCbcEncrypt := fun _ _ plaintext => 0 :: plaintext
  aesCbcDecrypt := fun _ _ ciphertext => .ok (ciphertext.drop 1)
  aesCbcDecryptBuffer := fun _ _ ciphertext => ciphertext.drop 1
  payloadDecode := fun b => .ok b
  payloadEncode := fun p => p


/-! ## Claim theorems -/

/-- Claim C9: for every `ExtendedPublicKey` (any point and any chain code)
and every index `i`, `derive_public_child` on `Hardened i` fails with
`HardenedDeriveError`, regardless of the key material. -/
theorem c9_hardened_rejection :
    ∀ (C : CryptoPrims) (x : ExtendedPublicKey) (i : Nat),
      x.derivePublicChild C (.Hardened i) = .error .HardenedDeriveError :=
  fun _ _ _ => rfl

/-- Computation rule for `PResult.bind` on `ok`. -/
theorem PResult.ok_bind {e a b : Type} (x : a) (f : a → PResult e b) :
    (PResult.ok x).bind f = f x := rfl

/-- Computation rule for `PResult.bind` on `panic`. -/
theorem PResult.panic_bind {e a b : Type} (f : a → PResult e b) :
    (PResult.panic : PResult e a).bind f = .panic := rfl

/-- Computation rule for `PResult.bind` on `error`. -/
theorem PResult.error_bind {e a b : Type} (err : e) (f : a → PResult e b) :
    (PResult.error err : PResult e a).bind f = .error err := rfl

/-- Folding private-child derivation from a dead accumulator stays dead. -/
theorem privPathFold_none (C : CryptoPrims) (path : List ChildNumber) :
    path.foldl (fun acc n => acc.bind fun y => y.derivePrivateChild C n)
      (none : Option ExtendedPrivateKey) = none := by
  induction path with
  | nil => rfl
  | cons n rest ih => simpa using ih

/-- Folding public-child derivation from a panicked accumulator stays
panicked. -/
theorem pubPathFold_panic (C : CryptoPrims) (path : List ChildNumber) :
    path.foldl (fun acc n => acc.bind fun y => y.derivePublicChild C n)
      (PResult.panic : PResult DeriveError ExtendedPublicKey) = .panic := by
  induction path with
  | nil => rfl
  | cons n rest ih => simpa [PResult.bind] using ih

/-- Folding public-child derivation from an errored accumulator keeps the
error. -/
theorem pubPathFold_error (C : CryptoPrims) (path : List ChildNumber) (e : DeriveError) :
    path.foldl (fun acc n => acc.bind fun y => y.derivePublicChild C n)
      (PResult.error e : PResult DeriveError ExtendedPublicKey) = .error e := by
  induction path with
  | nil => rfl
  | cons n rest ih => simpa [PResult.bind] using ih

/-- Claim C7: path derivation equals the left-to-right fold of single-child
derivation, for both the private and the public variant, and the empty path
returns the master key unchanged. -/
theorem c7_path_equals_fold :
    (∀ (C : CryptoPrims) (x : ExtendedPrivateKey),
        x.derivePrivatePath C [] = some x) ∧
    (∀ (C : CryptoPrims) (x : ExtendedPrivateKey) (path : List ChildNumber),
        x.derivePrivatePath C path =
          path.foldl (fun acc n => acc.bind fun y => y.derivePrivateChild C n) (some x)) ∧
    (∀ (C : CryptoPrims) (x : ExtendedPublicKey),
        x.derivePublicPath C [] = .ok x) ∧
    (∀ (C : CryptoPrims) (x : ExtendedPublicKey) (path : List ChildNumber),
        x.derivePublicPath C path =
          path.foldl (fun acc n => acc.bind fun y => y.derivePublicChild C n) (.ok x)) := by
  refine ⟨fun _ _ => rfl, fun C x path => ?_, fun _ _ => rfl, fun C x path => ?_⟩
  · induction path generalizing x with
    | nil => rfl
    | cons n rest ih =>
      show (match x.derivePrivateChild C n with
        | none => none
        | some y => y.derivePrivatePath C rest) = _
      cases h : x.derivePrivateChild C n with
      | none => simp [h, privPathFold_none]
      | some y => simp [h, ih y]
  · induction path generalizing x with
    | nil => rfl
    | cons n rest ih =>
      show (match x.derivePublicChild C n with
        | PResult.panic => PResult.panic
        | PResult.error e => PResult.error e
        | PResult.ok y => y.derivePublicPath C rest) = _
      cases h : x.derivePublicChild C n with
      | panic => simp [h, PResult.ok_bind, PResult.panic_bind, pubPathFold_panic]
      | error e => simp [h, PResult.ok_bind, PResult.error_bind, pubPathFold_error]
      | ok y => simp [h, PResult.ok_bind, ih y]

/-- Claim C6: for every valid private key `k`, chain code `c`, and normal
child number `i` on which both private and public derivation succeed, the
public key of the derived private child equals the public key of the
public-side child, and both produce the same new chain code. -/
theorem c6_derivation_consistency :
    ∀ (C : CryptoPrims) (k : Scalar) (cc : List Nat) (i : Nat),
      0 < k ∧ k < secpOrder →
      ∀ (xprv : ExtendedPrivateKey) (xpub : ExtendedPublicKey),
        ExtendedPrivateKey.derivePrivateChild C ⟨k, cc⟩ (.Normal i) = some xprv →
        ExtendedPublicKey.derivePublicChild C ⟨pubFromSecret k, cc⟩ (.Normal i) = .ok xpub →
        pubFromSecret xprv.private_key = xpub.public_key ∧
          xprv.chain_code = xpub.chain_code := by
  intro C k cc i _ xprv xpub hpriv hpub
  simp only [ExtendedPrivateKey.derivePrivateChild, ExtendedPublicKey.derivePublicChild,
    pubFromSecret] at hpriv hpub
  cases hI : privFromBytes ((C.hmac512 cc (C.serPoint k ++ be32 i)).take 32) with
  | none => rw [hI] at hpriv; exact absurd hpriv (by simp)
  | some t =>
    rw [hI] at hpriv hpub
    dsimp only at hpriv hpub
    by_cases hlen : ((C.hmac512 cc (C.serPoint k ++ be32 i)).drop 32).length ≠ 32
    · rw [if_pos hlen] at hpub; exact absurd hpub (by simp)
    · rw [if_neg hlen] at hpub
      by_cases hz : (t + k) % secpOrder = 0
      · rw [if_pos hz] at hpriv; exact absurd hpriv (by simp)
      · rw [if_neg hz] at hpriv
        rw [if_neg hlen] at hpriv
        have hz2 : ¬ (k + t) % secpOrder = 0 := by
          rw [Nat.add_comm k t]; exact hz
        rw [if_neg hz2] at hpub
        injection hpriv with h1
        injection hpub with h2
        subst h1; subst h2
        exact ⟨by simp [pubFromSecret, Nat.add_comm], rfl⟩

/-- Witness for C6: a concrete instance where both derivations succeed and
the theorem's conclusion is realised. -/
theorem c6_derivation_consistency_witness :
    ExtendedPrivateKey.derivePrivateChild C0 ⟨1, []⟩ (.Normal 0) =
        some ⟨2, List.replicate 32 0⟩ ∧
    ExtendedPublicKey.derivePublicChild C0 ⟨pubFromSecret 1, []⟩ (.Normal 0) =
        .ok ⟨2, List.replicate 32 0⟩ ∧
    (pubFromSecret (2 : Scalar) = (2 : Point) ∧
      (List.replicate 32 0 : List Nat) = List.replicate 32 0) := by
  refine ⟨by decide, by decide, ?_⟩
  exact c6_derivation_consistency C0 1 [] 0 (by decide)
    ⟨2, List.replicate 32 0⟩ ⟨2, List.replicate 32 0⟩ (by decide) (by decide)

/-- Claim C4: `Message::digest` resolves the payload digest by exact case
analysis on the length of `payload_digest`: length 0 with non-empty payload
computes `SHA256(payload)`; length 0 with empty payload fails with
`DigestAndPayloadMissing`; length 32 with non-empty payload recomputes and
fails with `FraudulentDigest` unless it matches, returning the digest on a
match; length 32 with empty payload returns the stored digest unchanged;
any other length fails with `UnexpectedLengthDigest`. -/
theorem c4_message_digest_cases :
    ∀ (C : CryptoPrims) (m : Message),
      (m.payload_digest.length = 0 → m.payload ≠ [] →
          m.digest C = .ok (C.sha256 m.payload)) ∧
      (m.payload_digest.length = 0 → m.payload = [] →
          m.digest C = .error .DigestAndPayloadMissing) ∧
      (m.payload_digest.length = 32 → m.payload ≠ [] →
          C.sha256 m.payload ≠ m.payload_digest →
          m.digest C = .error .FraudulentDigest) ∧
      (m.payload_digest.length = 32 → m.payload ≠ [] →
          C.sha256 m.payload = m.payload_digest →
          m.digest C = .ok m.payload_digest) ∧
      (m.payload_digest.length = 32 → m.payload = [] →
          m.digest C = .ok m.payload_digest) ∧
      (m.payload_digest.length ≠ 0 → m.payload_digest.length ≠ 32 →
          m.digest C = .error .UnexpectedLengthDigest) := by
  intro C m
  refine ⟨?_, ?_, ?_, ?_, ?_, ?_⟩
  · intro h1 h2
    unfold Message.digest
    rw [h1]
    simp [List.isEmpty_iff, h2]
  · intro h1 h2
    unfold Message.digest
    rw [h1]
    simp [List.isEmpty_iff, h2]
  · intro h1 h2 h3
    unfold Message.digest
    rw [h1]
    simp [List.isEmpty_iff, h2, h3]
  · intro h1 h2 h3
    unfold Message.digest
    rw [h1, h3]
    simp [List.isEmpty_iff, h2]
  · intro h1 h2
    unfold Message.digest
    rw [h1]
    simp [List.isEmpty_iff, h2]
  · intro h1 h2
    unfold Message.digest
    split <;> simp_all

/-- Witness for C4: a concrete message with an absent digest and non-empty
payload, resolved by the theorem's first case. -/
theorem c4_message_digest_cases_witness :
    Message.digest C0 ⟨[2], [3], 0, [], some ⟨1, []⟩, 1, [], [], 0, [3]⟩ =
      .ok (List.replicate 31 0 ++ [1]) :=
  (c4_message_digest_cases C0 ⟨[2], [3], 0, [], some ⟨1, []⟩, 1, [], [], 0, [3]⟩).1
    rfl (by decide)

/-- Mapping from relay digest errors to the corresponding auth wrapper
parse errors, used to compare the two digest-resolution rules. -/
def digestErrToAw : DigestError → AwParseError
  | .DigestAndPayloadMissing => .DigestAndPayloadMissing
  | .FraudulentDigest => .FraudulentDigest
  | .UnexpectedLengthDigest => .UnexpectedLengthDigest

/-- A relay `Message` carrying only the fields `Message::digest` reads,
used to compare the auth wrapper digest rule with the relay one. -/
def mkDigestMessage (payload_digest payload : List Nat) : Message :=
  ⟨[], [], 0, payload_digest, none, 0, [], [], 0, payload⟩

/-- Counterexample for C5: a wrapper with a 32-byte `payload_digest` and an
empty payload is rejected by `AuthWrapper::parse` with `FraudulentDigest`
(its public key, scheme and signature all parse), while `Message::digest`
on the same digest/payload pair accepts the digest as given — so parse does
not accept such wrappers and does not follow the relay rule. -/
theorem c5_digest_only_wrapper_rejected :
    AuthWrapper.parse C0 ⟨[2], [], 1, List.replicate 32 0, []⟩ =
        .error .FraudulentDigest ∧
    Message.digest C0 (mkDigestMessage (List.replicate 32 0) []) =
        .ok (List.replicate 32 0) := by
  decide

/-- Claim C5, amended: `AuthWrapper::parse` resolves the digest by the same
rule as `Message::digest` in every case except a 32-byte digest with an
empty payload; there it always recomputes `SHA256(payload)` and compares,
so a digest-only wrapper is accepted exactly when its digest equals the
SHA-256 of the empty byte string and otherwise fails with
`FraudulentDigest`. -/
theorem c5_digest_rule_amended :
    ∀ (C : CryptoPrims) (d p : List Nat),
      (¬(d.length = 32 ∧ p = []) →
          awResolveDigest C d p =
            (Message.digest C (mkDigestMessage d p)).mapError digestErrToAw) ∧
      (d.length = 32 →
          awResolveDigest C d [] =
            if C.sha256 [] = d then .ok d else .error .FraudulentDigest) := by
  intro C d p
  constructor
  · intro hne
    unfold awResolveDigest Message.digest mkDigestMessage
    rcases hn : d.length with _ | n
    · by_cases hp : p = []
      · simp [List.isEmpty_iff, hp, Except.mapError, digestErrToAw]
      · simp [List.isEmpty_iff, hp, Except.mapError, digestErrToAw]
    · by_cases h32 : n + 1 = 32
      · rw [h32]
        have hp : ¬ p = [] := fun hc => hne ⟨by rw [hn, h32], hc⟩
        by_cases hsha : C.sha256 p = d
        · simp [List.isEmpty_iff, hp, hsha, Except.mapError, digestErrToAw]
        · simp [List.isEmpty_iff, hp, hsha, Except.mapError, digestErrToAw]
      · have : d.length ≠ 0 := by rw [hn]; exact Nat.succ_ne_zero n
        have h32l : d.length ≠ 32 := by rw [hn]; exact h32
        split <;> simp_all [Except.mapError, digestErrToAw]
  · intro h32
    unfold awResolveDigest
    rw [h32]
    by_cases hsha : C.sha256 [] = d
    · simp [hsha]
    · simp [hsha]

/-- Witness for C5's amended theorem: a concrete 32-byte digest with empty
payload, rejected because it differs from the (modelled) SHA-256 of the
empty string. -/
theorem c5_digest_rule_amended_witness :
    awResolveDigest C0 (List.replicate 32 1) [] = .error .FraudulentDigest := by
  have h := (c5_digest_rule_amended C0 (List.replicate 32 1) []).2 (by decide)
  rw [h]
  decide

/-- Claim C8: `verify_stamp` fails with `NoneType` immediately when the
stamp type is `None` (for every input, before any key derivation); for a
claimed vout, the per-vout check fails with `MissingOutput` when the
decoded transaction has no output at that index, with `NotP2PKH` when the
output script is not the 25-byte P2PKH pattern, and with
`UnexpectedAddress` carrying the computed `RIPEMD160(SHA256(serialized
child key))` and the script's embedded 20-byte hash when they differ; and
any such per-vout error is the result of `verify_stamp` when the
surrounding pipeline reaches it. -/
theorem c8_verify_stamp_error_cases :
    (∀ (C : CryptoPrims) (ops : List StampOutpoints) (d : List Nat) (pk : Point),
        verifyStamp C ops d pk .None = .error .NoneType) ∧
    (∀ (C : CryptoPrims) (txc : ExtendedPublicKey) (tx : Transaction) (vout : Nat),
        tx.outputs[vout]? = none →
        checkVout C txc tx vout = .error .MissingOutput) ∧
    (∀ (C : CryptoPrims) (txc : ExtendedPublicKey) (tx : Transaction) (vout : Nat)
        (output : Output),
        tx.outputs[vout]? = some output →
        output.script.isP2PKH = false →
        checkVout C txc tx vout = .error .NotP2PKH) ∧
    (∀ (C : CryptoPrims) (txc : ExtendedPublicKey) (tx : Transaction) (vout : Nat)
        (output : Output) (child : ExtendedPublicKey),
        tx.outputs[vout]? = some output →
        output.script.isP2PKH = true →
        vout &&& (1 <<< 31) = 0 →
        txc.derivePublicChild C (.Normal vout) = .ok child →
        C.ripemd160 (C.sha256 (C.serPoint child.public_key)) ≠
          (output.script.bytes.drop 3).take 20 →
        checkVout C txc tx vout =
          .error (.UnexpectedAddress
            (C.ripemd160 (C.sha256 (C.serPoint child.public_key)))
            ((output.script.bytes.drop 3).take 20))) ∧
    (∀ (C : CryptoPrims) (d : List Nat) (pk : Point) (st : StampType)
        (ic txc : ExtendedPublicKey) (txb : List Nat) (tx : Transaction)
        (rest : List Nat) (vouts : List Nat) (e : StampError),
        st ≠ .None →
        stampSetup C d pk = .ok ic →
        txDecode txb = .ok (tx, rest) →
        ic.derivePublicChild C (.Normal 0) = .ok txc →
        checkVouts C txc tx vouts = .error e →
        verifyStamp C [⟨txb, vouts⟩] d pk st = .error e) := by
  refine ⟨?_, ?_, ?_, ?_, ?_⟩
  · intro C ops d pk
    unfold verifyStamp
    rw [if_pos rfl]
  · intro C txc tx vout h
    unfold checkVout
    rw [h]
  · intro C txc tx vout output hout hscript
    unfold checkVout
    rw [hout]
    simp [hscript]
  · intro C txc tx vout output child hout hscript hidx hderive hne
    have hcn : ChildNumber.fromNormalIndex vout = .ok (.Normal vout) := by
      unfold ChildNumber.fromNormalIndex
      rw [if_pos hidx]
    simp only [checkVout, hout, hscript, hcn, hderive]
    simp [hne]
  · intro C d pk st ic txc txb tx rest vouts e hst hsetup hdecode hderive hcheck
    have hcn : ChildNumber.fromNormalIndex (0 % 2 ^ 32) = .ok (.Normal 0) := by decide
    simp only [verifyStamp, if_neg hst, hsetup, processOutpoints, hdecode, hcn,
      hderive, hcheck]

/-- Witness for C8: a concrete transaction with a single empty-script
output; claiming vout 5 makes `verify_stamp` fail with `MissingOutput`. -/
theorem c8_verify_stamp_error_cases_witness :
    verifyStamp C0
        [⟨[0, 0, 0, 2] ++ [0] ++ [1] ++ (List.replicate 8 0 ++ [0]) ++ [0, 0, 0, 0], [5]⟩]
        (List.replicate 31 0 ++ [1]) 3 .Funded = .error .MissingOutput :=
  c8_verify_stamp_error_cases.2.2.2.2 C0 (List.replicate 31 0 ++ [1]) 3 .Funded
    ⟨6, List.replicate 32 0⟩ ⟨7, List.replicate 32 0⟩
    ([0, 0, 0, 2] ++ [0] ++ [1] ++ (List.replicate 8 0 ++ [0]) ++ [0, 0, 0, 0])
    ⟨2, [], [⟨0, ⟨[]⟩⟩], 0⟩ [] [5] .MissingOutput
    (by decide) (by decide) (by decide) (by decide) (by decide)

/-- Claim C10: with a stamp type other than `None`, a payload digest that
is a valid nonzero scalar, a destination key whose combination with the
digest's derived point is non-degenerate (so that the fixed-path setup
succeeds), `verify_stamp` on an empty outpoint list returns `Ok` with an
empty transaction list: verification is vacuous when no outputs are
referenced. -/
theorem c10_empty_outpoints_vacuous :
    ∀ (C : CryptoPrims) (d : List Nat) (pk : Point) (st : StampType)
      (s : Scalar) (ic : ExtendedPublicKey),
      st ≠ .None →
      privFromBytes d = some s →
      (pk + pubFromSecret s) % secpOrder ≠ 0 →
      stampSetup C d pk = .ok ic →
      verifyStamp C [] d pk st = .ok [] := by
  intro C d pk st s ic hst _ _ hsetup
  unfold verifyStamp
  rw [if_neg hst, hsetup]
  rfl

/-- Witness for C10: a concrete digest encoding the scalar 1 and
destination key 3, on which the vacuous verification succeeds. -/
theorem c10_empty_outpoints_vacuous_witness :
    verifyStamp C0 [] (List.replicate 31 0 ++ [1]) 3 .Funded = .ok [] :=
  c10_empty_outpoints_vacuous C0 (List.replicate 31 0 ++ [1]) 3 .Funded 1
    ⟨6, List.replicate 32 0⟩ (by decide) (by decide) (by decide) (by decide)

/-- A parsed message whose stored `payload_hmac` is exactly the tag
`HMAC(shared_key, payload_digest)` recomputed under `C0`, with an ordinary
salt, a valid empty-outpoint stamp, and the ciphertext `[0, 5]` produced by
encrypting the payload `[5]` under `C0`. -/
def pmHonest : ParsedMessage :=
  ⟨2, 3, 0, List.replicate 31 0 ++ [1], ⟨1, []⟩, .Aes, [1],
    List.replicate 32 7, 2, [0, 5]⟩

/-- The same message with its salt set to the tag value (the only way the
source's authentication check can pass) and a garbage `payload_hmac`. -/
def pmSaltTag : ParsedMessage :=
  { pmHonest with salt := List.replicate 32 7, payload_hmac := [9] }

/-- Claim C1 is violated by the code: `ParsedMessage::authenticate`
compares the recomputed HMAC against the message's `salt` field, not its
`payload_hmac`.  On `pmHonest`, whose stored `payload_hmac` equals the
recomputed tag exactly, authentication fails; on `pmSaltTag`, whose
`payload_hmac` is garbage but whose salt equals the tag, it succeeds; and
corrupting `payload_hmac` does not change the result of `open` at all. -/
theorem c1_authenticate_compares_salt :
    ParsedMessage.authenticateM C0 pmHonest (List.replicate 32 7) = .error ⟨⟩ ∧
    C0.hmac256 (List.replicate 32 7) pmHonest.payload_digest = pmHonest.payload_hmac ∧
    ParsedMessage.authenticateM C0 pmSaltTag (List.replicate 32 7) = .ok () ∧
    C0.hmac256 (List.replicate 32 7) pmSaltTag.payload_digest ≠ pmSaltTag.payload_hmac ∧
    ParsedMessage.openMessage C0 { pmSaltTag with payload_hmac := [8] } (natToBE 32 3) =
      ParsedMessage.openMessage C0 pmSaltTag (natToBE 32 3) ∧
    ParsedMessage.openMessage C0 { pmSaltTag with payload_hmac := [8] } (natToBE 32 3) =
      .ok ⟨[], [0, 5]⟩ := by
  decide

/-- A variant of `C0` whose cipher fields model the CBC/PKCS7 shape
concretely: encryption pads the plaintext to a 16-byte block multiple with
PKCS7 bytes and then adds `1` to every byte; block decryption subtracts
`1` from every byte, so the buffer after in-place decryption is the
plaintext followed by its padding, and the decrypt result is that buffer
PKCS7-unpadded (erroring on a bad length or bad padding). -/
def Cpad : CryptoPrims :=
  { C0 with
    aesCbcEncrypt := fun _ _ plaintext =>
      (plaintext ++
        List.replicate (16 - plaintext.length % 16) (16 - plaintext.length % 16)).map
        (fun b => (b + 1) % 256)
    aesCbcDecryptBuffer := fun _ _ ciphertext =>
      ciphertext.map (fun b => (b + 255) % 256)
    aesCbcDecrypt := fun _ _ ciphertext =>
      let buffer := ciphertext.map (fun b => (b + 255) % 256)
      if ciphertext.length % 16 ≠ 0 then .error ⟨⟩
      else
        let n := buffer.getLastD 0
        if n = 0 ∨ buffer.length < n then .error ⟨⟩
        else if (buffer.drop (buffer.length - n)).all (fun b => b = n) then
          .ok (buffer.take (buffer.length - n))
        else .error ⟨⟩ }

/-- A parsed message built exactly as claim C2 prescribes, under `Cpad`:
the payload `[5]` is encoded and encrypted (with PKCS7 padding to one
16-byte block) to the ciphertext `[6, 16, ..., 16]`, the digest is the
SHA-256 of that ciphertext, the stored `payload_hmac` is the matching tag,
and the stamp is a valid empty-outpoint stamp; the salt is `[1]`. -/
def pmPadHonest : ParsedMessage :=
  ⟨2, 3, 0, List.replicate 31 0 ++ [1], ⟨1, []⟩, .Aes, [1],
    List.replicate 32 7, 16, [6] ++ List.replicate 15 16⟩

/-- The same message with its salt set to the tag value — the only way the
source's (salt-comparing) authentication check can pass. -/
def pmPadSaltTag : ParsedMessage :=
  { pmPadHonest with salt := List.replicate 32 7 }

/-- Claim C2 is violated by the code.  `pmPadHonest` is built exactly as
the claim prescribes: the sender's shared key from (source private key 2,
destination public key 3, salt) equals the receiver's from (source public
key 2, destination private key 3, salt); the payload `[5]` is encoded and
encrypted to the one-block ciphertext; digest and HMAC match; and the true
plaintext is recoverable by decryption.  Yet `open` fails with
`Authentication` (the salt, not the HMAC, is compared).  Even when
authentication is forced to pass (`pmPadSaltTag`), neither function
returns the original payload: `open` returns the decoded *ciphertext*
(the result of `decrypt_vec` is discarded), and `open_in_place` returns
the decode of the plaintext *plus its PKCS7 padding* (the unpadded slice
returned by the in-place decrypt is discarded and the full buffer is
decoded). -/
theorem c2_open_roundtrip_broken :
    createSharedKey Cpad (pubFromSecret 3) (natToBE 32 2) [1] =
      .ok (List.replicate 32 7) ∧
    createSharedKey Cpad (pubFromSecret 2) (natToBE 32 3) [1] =
      .ok (List.replicate 32 7) ∧
    encryptPayload Cpad (List.replicate 32 7) (Cpad.payloadEncode [5]) =
      some ([6] ++ List.replicate 15 16) ∧
    Cpad.sha256 ([6] ++ List.replicate 15 16) = pmPadHonest.payload_digest ∧
    Cpad.hmac256 (List.replicate 32 7) pmPadHonest.payload_digest =
      pmPadHonest.payload_hmac ∧
    Cpad.aesCbcDecrypt (List.replicate 16 7) (List.replicate 16 7)
      ([6] ++ List.replicate 15 16) = .ok (Cpad.payloadEncode [5]) ∧
    ParsedMessage.openMessage Cpad pmPadHonest (natToBE 32 3) =
      .error .Authentication ∧
    ParsedMessage.openMessage Cpad pmPadSaltTag (natToBE 32 3) =
      .ok ⟨[], [6] ++ List.replicate 15 16⟩ ∧
    ParsedMessage.openInPlace Cpad pmPadSaltTag (natToBE 32 3) =
      .ok ⟨[], [5] ++ List.replicate 15 15⟩ ∧
    ([6] ++ List.replicate 15 16 : List Nat) ≠ [5] ∧
    ([5] ++ List.replicate 15 15 : List Nat) ≠ [5] := by
  decide

/-- A wire message with a 32-byte all-zero `payload_digest` and an empty
payload: `Message::parse` accepts the digest as given. -/
def msgZeroDigest : Message :=
  ⟨[2], [3], 0, List.replicate 32 0, some ⟨1, []⟩, 1, [], List.replicate 32 7, 0, []⟩

/-- The parsed form of `msgZeroDigest`. -/
def pmZeroDigest : ParsedMessage :=
  ⟨2, 3, 0, List.replicate 32 0, ⟨1, []⟩, .Aes, [], List.replicate 32 7, 0, []⟩

/-- Claim C3 is violated by the code: a 32-byte digest that is not a valid
scalar (all zeros, or all `0xff` bytes which exceed the group order) is
accepted at parse time, and `verify_stamp` then panics on the unwrapped
`PrivateKey::from_slice(payload_digest)` instead of returning an error. -/
theorem c3_verify_stamp_panics :
    Message.parse C0 msgZeroDigest = .ok pmZeroDigest ∧
    ParsedMessage.verifyStampM C0 pmZeroDigest = .panic ∧
    verifyStamp C0 [] (List.replicate 32 0) 3 .Funded = .panic ∧
    verifyStamp C0 [] (List.replicate 32 255) 3 .Funded = .panic ∧
    privFromBytes (List.replicate 32 0) = none ∧
    privFromBytes (List.replicate 32 255) = none := by
  decide
